import Mathlib

/-!
Shallow embedding of the PDF discovery / validation / cataloguing pipeline
implemented in `scripts/python/pdf_finder.py`, together with proofs about
the properties its specification states.

Python strings are modelled as Lean `String`s viewed through their character
lists (a Python `str` is a sequence of unicode characters, so list-of-char
semantics matches Python's `len`, slicing, `split`, ... exactly; Lean's
byte-oriented primitives are avoided).  Network traffic, the file system and
`datetime.now()` are passed in explicitly as environments/parameters; the
per-process salted `hash` built-in is passed in as a function parameter.
-/

namespace PdfFinder

/-! ### Python string primitives (character-list semantics) -/

/-- Is the first list a prefix of the second (Python `str.startswith` core). -/
def isPre : List Char → List Char → Bool
  | [], _ => true
  | _ :: _, [] => false
  | a :: as, b :: bs => a = b && isPre as bs

/-- Does the second list contain the first as a contiguous sublist
(Python's `pat in s`). -/
def hasSub (pat : List Char) : List Char → Bool
  | [] => pat.isEmpty
  | c :: rest => isPre pat (c :: rest) || hasSub pat rest

/-- Python `len(s)`. -/
def pyLen (s : String) : Nat := s.data.length

/-- Python `s.lower()` (ASCII-faithful). -/
def pyLower (s : String) : String := ⟨s.data.map Char.toLower⟩

/-- Python `s.startswith(pre)`. -/
def pyStartsWith (s pre : String) : Bool := isPre pre.data s.data

/-- Python `s.endswith(suf)`. -/
def pyEndsWith (s suf : String) : Bool := isPre suf.data.reverse s.data.reverse

/-- Python `pat in s` (substring containment). -/
def pyContains (s pat : String) : Bool := hasSub pat.data s.data

/-- Drop leading whitespace. -/
def dropSpaces : List Char → List Char
  | [] => []
  | c :: rest => if c.isWhitespace then dropSpaces rest else c :: rest

/-- Python `s.strip()`. -/
def pyStrip (s : String) : String :=
  ⟨(dropSpaces (dropSpaces s.data).reverse).reverse⟩

/-- Python `s.split(sep)` for a one-character separator: splits on every
occurrence and keeps empty pieces. -/
def splitOnChar (sep : Char) : List Char → List (List Char)
  | [] => [[]]
  | c :: rest =>
    let r := splitOnChar sep rest
    if c = sep then [] :: r
    else match r with
      | [] => [[c]]
      | g :: gs => (c :: g) :: gs

/-- Python `s.split()` (no argument): split on whitespace runs, keeping no
empty pieces.  The accumulator holds the current word reversed. -/
def splitWsAux : List Char → List Char → List (List Char)
  | [], cur => if cur.isEmpty then [] else [cur.reverse]
  | c :: rest, cur =>
    if c.isWhitespace then
      if cur.isEmpty then splitWsAux rest [] else cur.reverse :: splitWsAux rest []
    else splitWsAux rest (c :: cur)

def splitWs (l : List Char) : List (List Char) := splitWsAux l []

/-- Python `s.replace(pat, rep)`: replace every non-overlapping occurrence,
scanning left to right.  (All call sites use a non-empty pattern.)  The
fuel argument — always instantiated with the list's length, which bounds
the number of scanning steps — keeps the recursion structural. -/
def replaceAllFuel (pat rep : List Char) : Nat → List Char → List Char
  | 0, l => l
  | _ + 1, [] => []
  | fuel + 1, c :: rest =>
    if pat ≠ [] ∧ isPre pat (c :: rest) = true then
      rep ++ replaceAllFuel pat rep fuel ((c :: rest).drop pat.length)
    else
      c :: replaceAllFuel pat rep fuel rest

def replaceAll (pat rep l : List Char) : List Char :=
  replaceAllFuel pat rep l.length l

/-- Python `str.capitalize()`: first character upper-cased, the rest
lower-cased. -/
def pyCapitalize : List Char → List Char
  | [] => []
  | c :: rest => c.toUpper :: rest.map Char.toLower

/-- Python `str.islower()`: at least one cased character and no upper-case
character (ASCII-faithful). -/
def pyIsLowerStr (w : List Char) : Bool :=
  w.any (fun c => c.isLower || c.isUpper) && w.all (fun c => !c.isUpper)

/-- Python `' '.join(words)`. -/
def joinSpace : List (List Char) → List Char
  | [] => []
  | [w] => w
  | w :: ws => w ++ ' ' :: joinSpace ws

/-! ### URL helpers (`urllib.parse` as used by the script)

The script only ever inspects `urlparse(u).netloc`, `urlparse(u).path` and
resolves root-relative references with `urljoin`; the helpers below model
exactly those uses for URLs that are either absolute (`scheme://...`),
protocol-relative (`//...`) or contain no `//` at all — the only shapes the
pipeline produces. -/

/-- Scan to the first occurrence of two consecutive slashes and return what
follows them (`none` when there is none). -/
def dropAfterSlashSlash : List Char → Option (List Char)
  | [] => none
  | [_] => none
  | a :: b :: rest =>
    if a = '/' ∧ b = '/' then some rest
    else dropAfterSlashSlash (b :: rest)

/-- `urlparse(u).netloc`: the host part between `//` and the next
`/`, `?` or `#`; empty when the URL has no `//`. -/
def netlocChars (l : List Char) : List Char :=
  match dropAfterSlashSlash l with
  | none => []
  | some rest => rest.takeWhile (fun c => c != '/' && c != '?' && c != '#')

def netloc (u : String) : String := ⟨netlocChars u.data⟩

/-- `urlparse(u).path`. -/
def urlPathChars (l : List Char) : List Char :=
  match dropAfterSlashSlash l with
  | some rest =>
    (rest.dropWhile (fun c => c != '/' && c != '?' && c != '#')).takeWhile
      (fun c => c != '?' && c != '#')
  | none => l.takeWhile (fun c => c != '?' && c != '#')

/-- `os.path.basename`: everything after the last `/`. -/
def basenameChars (l : List Char) : List Char :=
  (l.reverse.takeWhile (fun c => c != '/')).reverse

/-- The scheme of an absolute URL (characters before the first `:`). -/
def schemeChars : List Char → List Char
  | [] => []
  | c :: rest => if c = ':' then [] else c :: schemeChars rest

/-- `urllib.parse.urljoin(base, href)` restricted to the shapes the crawler
feeds it: `href` starting with `//` (protocol-relative) or with a single `/`
(root-relative). -/
def urljoin (base href : String) : String :=
  if pyStartsWith href "//" then ⟨schemeChars base.data⟩ ++ ":" ++ href
  else ⟨schemeChars base.data⟩ ++ "://" ++ netloc base ++ href

/-- Lines 229-231 of pdf_finder.py: relative URLs are absolutised only when
they start with `/`. -/
def resolveHref (currentUrl href : String) : String :=
  if pyStartsWith href "/" then urljoin currentUrl href else href

/-! ### Stable-id generation (line 438 of pdf_finder.py)

`pdf_id = f"pdf{abs(hash(url)) % 10000000:07d}"`.  Python's `hash` on a
string is salted with a per-process random seed (`PYTHONHASHSEED`), so the
built-in is modelled as an explicit parameter `pyHash : String → Int`: one
fixed function per interpreter process. -/

def digitChar (d : Nat) : Char := Char.ofNat (48 + d)

/-- The `:07d` format applied to a number below `10^7`: exactly seven
decimal digits, zero-padded. -/
def natDigits7 (n : Nat) : String :=
  ⟨[digitChar (n / 1000000 % 10), digitChar (n / 100000 % 10),
    digitChar (n / 10000 % 10), digitChar (n / 1000 % 10),
    digitChar (n / 100 % 10), digitChar (n / 10 % 10), digitChar (n % 10)]⟩

/-- Line 438: `f"pdf{abs(hash(url)) % 10000000:07d}"`. -/
def pdf_id (pyHash : String → Int) (url : String) : String :=
  "pdf" ++ natDigits7 ((pyHash url).natAbs % 10000000)

/-- Recogniser for the documented id shape: the literal `pdf` followed by
exactly seven decimal digits. -/
def isPdfId (s : String) : Bool :=
  match s.data with
  | 'p' :: 'd' :: 'f' :: rest => rest.length = 7 && rest.all Char.isDigit
  | _ => false

/-! ### URL validation and metadata extraction (validate_pdf_url, lines 254-381)

The two network requests (HEAD, then a streamed GET of a 100KB prefix handed
to pdfplumber) are modelled by an explicit per-URL environment.  `none` in a
slot models the corresponding Python call raising an exception. -/

/-- What the HEAD request reports (header strings already parsed:
`contentLength = none` models an absent/empty `Content-Length` header, which
is falsy at line 280). -/
structure HeadResp where
  contentType : String
  contentLength : Option Nat
deriving DecidableEq

/-- What pdfplumber extracts from the downloaded 100KB prefix.
`metaTitle`/`metaAuthor`/`metaCreationDate` are `pdf.metadata` entries
(`some ""` models a present-but-falsy value, skipped by the truthiness
tests at lines 326-330); `firstPageText` is `pdf.pages[0].extract_text()`
(`none` models a missing page / a raise / a falsy result, all of which leave
the title untouched via the inner `try`/falsiness guards). -/
structure PdfDeep where
  metaTitle : Option String := none
  metaAuthor : Option String := none
  metaCreationDate : Option String := none
  pages : Nat := 0
  firstPageText : Option String := none
deriving DecidableEq

/-- The network/extraction environment one `validate_pdf_url(url, ...)` call
sees.  `head = none`: the HEAD request raises.  `getStatus = none`: the
streaming GET raises (caught only by the outer handler at line 378).
`pdfOpen = none`: `pdfplumber.open` (or the extraction inside it) raises,
caught at line 360 with the metadata gathered so far kept. -/
structure UrlEnv where
  head : Option HeadResp := none
  getStatus : Option Nat := none
  pdfOpen : Option PdfDeep := none

/-- Python truthiness of an optional string. -/
def pyTruthy : Option String → Bool
  | none => false
  | some s => !s.data.isEmpty

/-- Round the fraction `a / b` (with `b > 0`) to the nearest integer,
halves to even — Python's `round` on the exact value. -/
def roundHalfEvenInt (a : Int) (b : Nat) : Int :=
  let n := a / b
  let r := a % b
  if 2 * r < b then n
  else if (b : Int) < 2 * r then n + 1
  else if n % 2 = 0 then n else n + 1

/-- Line 282: `round(int(content_length) / (1024 * 1024), 2)`.  The script
computes the quotient in floating point; the model rounds the exact
rational `content_length / 2^20` to two decimals with the same
half-to-even rule, which coincides with the float result at every content
length considered in this development. -/
def sizeMbOf (contentLength : Nat) : ℚ :=
  mkRat (roundHalfEvenInt (contentLength * 100) (1024 * 1024)) 100

/-- The metadata dictionary `validate_pdf_url` builds up (absent key =
`none`). -/
structure Metadata where
  sizeMB : Option ℚ := none
  title : Option String := none
  author : Option String := none
  yearPublished : Option String := none
  pages : Option Nat := none
deriving DecidableEq

/-- Lines 292-294: fallback title de-slugified from the URL's final path
segment. -/
def derivedTitle (url : String) : String :=
  let filename := basenameChars (urlPathChars url.data)
  let t := replaceAll ".pdf".data [] filename
  let t := replaceAll "-".data [' '] t
  let t := replaceAll "_".data [' '] t
  let t := replaceAll "%20".data [' '] t
  ⟨joinSpace ((splitWs t).map (fun w => if pyIsLowerStr w then pyCapitalize w else w))⟩

/-- Lines 352-357: the loop that scans the segments of the first page's text
(note: the source splits on the character `|`, and keeps a stripped segment
exactly when its length is strictly between 10 and 100). -/
def findTitleLine : List String → Option String
  | [] => none
  | l :: rest =>
    let l := pyStrip l
    if 10 < pyLen l ∧ pyLen l < 100 then some l else findTitleLine rest

/-- Lines 351-357: `lines = text.split('|')`, then scan `lines[:5]`. -/
def fallbackTitle (text : String) : Option String :=
  findTitleLine (((splitOnChar '|' text.data).map (fun l => String.mk l)).take 5)

/-- Lines 330-340: pull a year out of a PDF `D:YYYYMMDD...` creation date. -/
def yearOf (dateStr : String) : Option String :=
  if pyTruthy (some dateStr) ∧ pyStartsWith dateStr "D:" = true then
    some ⟨(dateStr.data.drop 2).take 4⟩
  else none

/-- Lines 324-357: what one successful `pdfplumber.open` does to the
metadata dictionary (`urlTitle` is the URL-derived title set at line 295,
used by the fallback trigger at line 346). -/
def deepExtract (d : PdfDeep) (urlTitle : String) (md : Metadata) : Metadata :=
  let md := if pyTruthy d.metaTitle then { md with title := d.metaTitle } else md
  let md := if pyTruthy d.metaAuthor then { md with author := d.metaAuthor } else md
  let md :=
    match d.metaCreationDate with
    | some ds =>
      match yearOf ds with
      | some y => { md with yearPublished := some y }
      | none => md
    | none => md
  let md := { md with pages := some d.pages }
  if md.title = none ∨ md.title = some urlTitle then
    match d.firstPageText with
    | some text =>
      if pyTruthy (some text) then
        match fallbackTitle text with
        | some line => { md with title := some line }
        | none => md
      else md
    | none => md
  else md

/-- One step of `re.sub(r'\s+', ' ', t)`: collapse every whitespace run to a
single space (the boolean records whether the previous character was part of
a run). -/
def collapseWsAux : Bool → List Char → List Char
  | _, [] => []
  | prev, c :: rest =>
    if c.isWhitespace then
      if prev then collapseWsAux true rest else ' ' :: collapseWsAux true rest
    else c :: collapseWsAux false rest

/-- Lines 369-374: collapse whitespace, strip, truncate to 200 characters
with an ellipsis. -/
def titleCleanup (t : String) : String :=
  let t := pyStrip ⟨collapseWsAux false t.data⟩
  if pyLen t > 200 then ⟨t.data.take 197⟩ ++ "..." else t

/-- Apply the cleanup of lines 369-374 when a title key is present. -/
def cleanupMeta (md : Metadata) : Metadata :=
  match md.title with
  | some t => { md with title := some (titleCleanup t) }
  | none => md

/-- Lines 291-376 of `validate_pdf_url`: everything after the size check,
entered with the metadata gathered so far (`{}` or `{sizeMB}`).  Sets the
URL-derived title (line 295), returns early when deep verification is off
(line 299), otherwise runs the (modelled) pdfplumber phase and the title
cleanup of lines 369-374. -/
def validateTail (avail : Bool) (env : UrlEnv) (url : String) (verify : Bool)
    (md : Metadata) : Bool × Metadata :=
  let urlTitle := derivedTitle url
  let md := { md with title := some urlTitle }
  if ¬ (verify = true) then (true, md)    -- line 299
  else if avail then
    match env.getStatus with
    | none => (false, {})                 -- the streamed GET raised: line 381
    | some st =>
      if st = 200 then
        match env.pdfOpen with
        | none => (true, cleanupMeta md)  -- extraction raised: lines 360-366
        | some d => (true, cleanupMeta (deepExtract d urlTitle md))
      else (true, cleanupMeta md)
  else (true, cleanupMeta md)

/-- `validate_pdf_url` (lines 254-381).  `avail` is the module-level
`PDFPLUMBER_AVAILABLE` flag; `verify` is the `verify` argument.  Returns
the `(is_valid, metadata)` pair. -/
def validate_pdf_url (avail : Bool) (env : UrlEnv) (url : String) (verify : Bool) :
    Bool × Metadata :=
  match env.head with
  | none => (false, {})                   -- HEAD raised: outer handler, line 381
  | some h =>
    if ¬ (pyContains (pyLower h.contentType) "application/pdf" = true) ∧
        ¬ (pyEndsWith (pyLower url) ".pdf" = true) then
      (false, {})                         -- line 276
    else
      match h.contentLength with
      | some len =>
        if sizeMbOf len > 50 then
          (false, {})                     -- line 289: large PDFs rejected, dict dropped
        else validateTail avail env url verify { sizeMB := some (sizeMbOf len) }
      | none => validateTail avail env url verify {}

/-! ### The collection and the merge step (search_and_process, lines 383-474) -/

/-- One catalogued entry, with exactly the fields the construction at lines
440-460 can produce (optional fields are the `if ... in metadata` additions
at lines 450-460). -/
structure PdfEntry where
  id : String
  url : String
  title : String
  dateAdded : String
  lastChecked : String
  isAvailable : Bool
  lastStatus : Nat
  author : Option String := none
  pages : Option Nat := none
  sizeMB : Option ℚ := none
  yearPublished : Option String := none
  sourceQuery : Option (List String) := none
deriving DecidableEq

/-- The persisted catalogue (`self.data`): `lastValidated` plus the ordered
`pdfs` sequence. -/
structure Collection where
  lastValidated : String
  pdfs : List PdfEntry
deriving DecidableEq

/-- Lines 421-427: drop URLs already seen in this batch or already in
`self.existing_urls`, preserving first-occurrence order. -/
def uniqueNewFrom (existing : List String) : List String → List String → List String
  | _, [] => []
  | seen, u :: rest =>
    if u ∉ seen ∧ u ∉ existing then u :: uniqueNewFrom existing (u :: seen) rest
    else uniqueNewFrom existing seen rest

def uniqueNew (existing allUrls : List String) : List String :=
  uniqueNewFrom existing [] allUrls

/-- Lines 437-460: build the entry appended for a validated URL.  `runDate`
is `datetime.now().strftime("%Y-%m-%d")` (both `dateAdded` and
`lastChecked` are taken at the same run). -/
def buildEntry (pyHash : String → Int) (runDate query url : String) (md : Metadata) :
    PdfEntry :=
  { id := pdf_id pyHash url
    url := url
    title := md.title.getD "Untitled PDF"
    dateAdded := runDate
    lastChecked := runDate
    isAvailable := true
    lastStatus := 200
    author := md.author
    pages := md.pages
    sizeMB := md.sizeMB
    yearPublished := md.yearPublished
    sourceQuery :=
      if pyLen query > 0 then some ((splitOnChar ' ' query.data).map (fun w => String.mk w))
      else none }

/-- The mutable state the validation loop of lines 433-469 threads:
`self.data`, `self.existing_urls` and the local `results` list. -/
structure RunState where
  data : Collection
  existing : List String
  results : List PdfEntry

/-- One iteration of the loop at lines 434-469: validate, and on success
append the entry to `results` and `self.data['pdfs']` and the URL to
`self.existing_urls`. -/
def processUrl (avail : Bool) (env : String → UrlEnv) (pyHash : String → Int)
    (runDate query : String) (verify : Bool) (st : RunState) (url : String) : RunState :=
  let v := validate_pdf_url avail (env url) url verify
  if v.1 then
    let e := buildEntry pyHash runDate query url v.2
    { data := { st.data with pdfs := st.data.pdfs ++ [e] }
      existing := st.existing ++ [url]
      results := st.results ++ [e] }
  else st

/-- `save_results` (lines 476-487): stamp `lastValidated` with the current
time and persist.  Only the data transformation is modelled. -/
def save_results (nowIso : String) (c : Collection) : Collection :=
  { c with lastValidated := nowIso }

/-- `search_and_process` (lines 383-474), starting from the point where the
search back-ends have produced the concatenated candidate list `allUrls`
(lines 401-419; the back-ends are network calls, so their output is taken
as an input here).  `self.existing_urls` is the set built at line 89 from
the loaded collection.  Returns the updated collection (already passed
through `save_results`) and the list of newly validated entries. -/
def search_and_process (avail : Bool) (env : String → UrlEnv) (pyHash : String → Int)
    (runDate nowIso query : String) (verify : Bool) (c : Collection)
    (allUrls : List String) : Collection × List PdfEntry :=
  let existing := c.pdfs.map (fun e => e.url)
  let uniqueUrls := uniqueNew existing allUrls
  let st := uniqueUrls.foldl (processUrl avail env pyHash runDate query verify)
    ⟨c, existing, []⟩
  (save_results nowIso st.data, st.results)

/-! ### The site crawler (search_website_for_pdfs, lines 189-252) -/

/-- One fetched page as the crawler sees it. -/
structure Page where
  status : Nat
  contentType : String
  hrefs : List String

/-- The network: what `self.session.get(url)` produces for every URL
(`none` models the request raising, handled by the `except` at line 248). -/
def CrawlEnv : Type := String → Option Page

/-- The crawler's loop state: collected PDF links, visited set and the
FIFO frontier (`results`, `visited`, `to_visit` at lines 201-203). -/
structure CrawlState where
  results : List String
  visited : List String
  toVisit : List String
deriving DecidableEq

/-- Lines 240-243: a (resolved) link becomes a new frontier entry only if
the pending queue is below 50, the link was not visited, is not already
queued, and has the same netloc as the page being processed. -/
def enqueue (currentUrl : String) (visited toVisit : List String) (href : String) :
    List String :=
  if toVisit.length < 50 ∧ href ∉ visited ∧ href ∉ toVisit ∧
      netloc currentUrl = netloc href then
    toVisit ++ [href]
  else toVisit

/-- Lines 227-243 for a single anchor: resolve it, collect it as a result
when its lower-cased form ends in `.pdf` and it is new (line 236), break
out of the anchor loop when the result count reaches `limit` (line 238 —
the frontier check for that link is skipped too), otherwise consider the
link for the frontier.  Returns (results, toVisit, break?). -/
def linkStep (currentUrl : String) (limit : Nat) (visited : List String)
    (href : String) (results toVisit : List String) :
    List String × List String × Bool :=
  if pyEndsWith (pyLower (resolveHref currentUrl href)) ".pdf" = true ∧
      resolveHref currentUrl href ∉ results then
    if (results ++ [resolveHref currentUrl href]).length ≥ limit then
      (results ++ [resolveHref currentUrl href], toVisit, true)
    else
      (results ++ [resolveHref currentUrl href],
       enqueue currentUrl visited toVisit (resolveHref currentUrl href), false)
  else
    (results, enqueue currentUrl visited toVisit (resolveHref currentUrl href), false)

/-- Lines 226-243: process the anchors of one fetched page in order,
threading the crawl's `results` and `to_visit` lists. -/
def processLinks (currentUrl : String) (limit : Nat) (visited : List String) :
    List String → List String → List String → List String × List String
  | [], results, toVisit => (results, toVisit)
  | href :: rest, results, toVisit =>
    match linkStep currentUrl limit visited href results toVisit with
    | (results2, toVisit2, brk) =>
      if brk then (results2, toVisit2)
      else processLinks currentUrl limit visited rest results2 toVisit2

/-- The `while` guard at line 206 (negated): stop when the frontier is
empty or enough results were collected. -/
def crawlDone (limit : Nat) (s : CrawlState) : Prop :=
  s.toVisit = [] ∨ s.results.length ≥ limit

instance (limit : Nat) (s : CrawlState) : Decidable (crawlDone limit s) := by
  unfold crawlDone; infer_instance

/-- One iteration of the crawl loop (lines 206-250): pop the frontier head;
discard it if visited; otherwise mark it visited and fetch it; skip it on a
raise, a non-200 status or a non-HTML content type; otherwise process its
anchors. -/
def crawlIter (env : CrawlEnv) (limit : Nat) (s : CrawlState) : CrawlState :=
  match s.toVisit with
  | [] => s
  | current :: rest =>
    if current ∈ s.visited then { s with toVisit := rest }
    else
      let visited := s.visited ++ [current]
      match env current with
      | none => { s with visited := visited, toVisit := rest }
      | some page =>
        if page.status ≠ 200 then { s with visited := visited, toVisit := rest }
        else if ¬ (pyContains page.contentType "text/html" = true) then
          { s with visited := visited, toVisit := rest }
        else
          let r := processLinks current limit visited page.hrefs s.results rest
          { results := r.1, visited := visited, toVisit := r.2 }

/-- The crawl loop, driven by explicit fuel: `none` means the loop had not
finished after `fuel` iterations (the Python loop has no other bound). -/
def crawlLoop (env : CrawlEnv) (limit : Nat) : Nat → CrawlState → Option (List String)
  | 0, _ => none
  | fuel + 1, s =>
    if crawlDone limit s then some s.results
    else crawlLoop env limit fuel (crawlIter env limit s)

/-- `search_website_for_pdfs(website_url, limit)` (lines 189-252). -/
def search_website_for_pdfs (env : CrawlEnv) (websiteUrl : String)
    (limit fuel : Nat) : Option (List String) :=
  crawlLoop env limit fuel ⟨[], [], [websiteUrl]⟩

/-- The crawl state after `n` loop iterations from the seed. -/
def crawlStateAt (env : CrawlEnv) (limit : Nat) (seed : String) : Nat → CrawlState
  | 0 => ⟨[], [], [seed]⟩
  | n + 1 => crawlIter env limit (crawlStateAt env limit seed n)

/-! ### Loading the existing collection (PDFFinder.__init__, lines 76-89) -/

/-- JSON values, as `json.load` produces them. -/
inductive JValue where
  | null : JValue
  | bool (b : Bool) : JValue
  | num (n : Int) : JValue
  | str (s : String) : JValue
  | arr (xs : List JValue) : JValue
  | obj (fields : List (String × JValue)) : JValue

/-- What reading the `existing_file` can yield: no file
(`os.path.exists` false), bytes that are not valid UTF-8 (`json.load`
raises `UnicodeDecodeError`), text that is not valid JSON (`json.load`
raises `json.JSONDecodeError`), or a parsed JSON value. -/
inductive FileRead where
  | missing : FileRead
  | undecodable : FileRead
  | badJson : FileRead
  | parsed (v : JValue) : FileRead

/-- Python `v[k]`: a `KeyError` on a dict without the key, a `TypeError`
on any non-dict. -/
def jSubscript (v : JValue) (k : String) : Except String JValue :=
  match v with
  | .obj fields =>
    match fields.lookup k with
    | some x => .ok x
    | none => .error "KeyError"
  | _ => .error "TypeError"

/-- Python iteration over `data['pdfs']` as the set comprehension at line
89 needs it.  Only a list yields usable elements; every other value ends in
a `TypeError` (directly for non-iterables; for a dict or string the
iteration yields strings whose `pdf['url']` subscript then raises the same
`TypeError`). -/
def jElems : JValue → Except String (List JValue)
  | .arr xs => .ok xs
  | _ => .error "TypeError"

/-- The default data of lines 84-86: `{"lastValidated": now, "pdfs": []}`. -/
def defaultData (nowIso : String) : JValue :=
  .obj [("lastValidated", .str nowIso), ("pdfs", .arr [])]

/-- `PDFFinder.__init__` lines 76-89: load `self.data` and build
`self.existing_urls = {pdf['url'] for pdf in self.data['pdfs']}`.  Only
`json.JSONDecodeError` is caught (line 83); a missing file takes the
default (line 86).  Returns the pair `(self.data, existing url values)` or
the uncaught exception. -/
def finderInit (f : FileRead) (nowIso : String) :
    Except String (JValue × List JValue) :=
  match f with
  | .missing => .ok (defaultData nowIso, [])
  | .badJson => .ok (defaultData nowIso, [])
  | .undecodable => .error "UnicodeDecodeError"
  | .parsed v => do
    let pdfs ← jSubscript v "pdfs"
    let items ← jElems pdfs
    let urls ← items.mapM (fun e => jSubscript e "url")
    .ok (v, urls)

/-! ### Concrete environments and auxiliary notions used by the claims -/

/-- The title fallback as the specification words it: scan the extracted
text's lines for the first plausible title line, "plausible" meaning a
length between 10 and 200 characters.  (Definition written from the spec's
words, for comparison with `fallbackTitle`, which embeds the source.) -/
def specFallbackTitle (text : String) : Option String :=
  ((splitOnChar '\n' text.data).map (fun l => String.mk l)).find?
    (fun l => decide (10 < pyLen l) && decide (pyLen l < 200))

/-- The network of the claimed scenario: a seed page whose anchors are
exactly `/a.pdf`, `/b.html` and `https://other.example/c.pdf`; the two
same-domain links resolve to pages that contribute nothing further. -/
def envC5 : CrawlEnv := fun u =>
  if u = "https://seed.example/index.html" then
    some ⟨200, "text/html", ["/a.pdf", "/b.html", "https://other.example/c.pdf"]⟩
  else if u = "https://seed.example/a.pdf" then some ⟨200, "application/pdf", []⟩
  else if u = "https://seed.example/b.html" then some ⟨200, "text/html", []⟩
  else none

/-- The `n`-th page of the adversarial chain site:
`https://s.example/p`, `https://s.example/px`, `https://s.example/pxx`, … -/
def chainU (n : Nat) : String :=
  ⟨"https://s.example/p".data ++ List.replicate n 'x'⟩

/-- The chain site: every page serves HTML whose sole anchor is the page's
own URL with one more `x` — always fresh, same netloc, never a `.pdf`. -/
def chainEnv : CrawlEnv := fun u => some ⟨200, "text/html", [u ++ "x"]⟩

/-- The visited set after `n` iterations of crawling the chain site. -/
def chainVisited (n : Nat) : List String := (List.range n).map chainU

/-- `discover` returns: some fuel suffices for the while loop of line 206
to reach one of its two exits. -/
def crawlTerminates (env : CrawlEnv) (limit : Nat) (seed : String) : Prop :=
  ∃ fuel, (crawlLoop env limit fuel ⟨[], [], [seed]⟩).isSome = true

/-- The termination measure for the finite-universe case: pending frontier
entries plus never-yet-reached URLs of the universe. -/
def crawlMeasure (U : Finset String) (vis tv : List String) : Nat :=
  tv.length + (U.filter (fun u => u ∉ vis ∧ u ∉ tv)).card

/-- The network for the C8 witness: the seed page carries one root-relative
link. -/
def envC8 : CrawlEnv := fun u =>
  if u = "https://s.example/" then some ⟨200, "text/html", ["/x.html"]⟩ else none

/-! ## Claims -/

/-! ### C1: stability of the generated entry identifier -/

/-- C1: the claim states the generated id is a pure function of the URL
alone, stable across separate process runs.  It is not: line 438 derives
the id from Python's built-in `hash`, which for strings is salted with a
per-process random seed (`PYTHONHASHSEED`), so the id genuinely depends on
the process hash function, not on the URL alone.  Two runs whose salted
hashes assign the URL the values 0 and 1 produce different ids for the
same URL. -/
theorem C1_pdf_id_not_function_of_url_alone :
    pdf_id (fun _ => 0) "https://a.example/x.pdf" ≠
      pdf_id (fun _ => 1) "https://a.example/x.pdf" := by decide

/-! ### C9: loading the existing collection -/

/-- C9 counterexample: a file that exists and holds the valid JSON value
`{}` — corrupt as a catalogue, since it lacks the `pdfs` key — makes
`PDFFinder.__init__` raise a `KeyError` at line 89 instead of substituting
an empty collection: only `json.JSONDecodeError` is caught at line 83. -/
theorem C9_corrupt_json_object_raises :
    finderInit (.parsed (.obj [])) "2026-10-12T00:00:00" = .error "KeyError" := rfl

/-- C9 amended: a missing file, or a file whose contents fail JSON
decoding, is recovered by initializing the default empty collection; but a
file that is not decodable as UTF-8 raises an uncaught
`UnicodeDecodeError` (and, per the counterexample, JSON of the wrong shape
raises too), failing the pipeline. -/
theorem C9_load_recovers_only_missing_and_bad_json (nowIso : String) :
    finderInit .missing nowIso = .ok (defaultData nowIso, []) ∧
    finderInit .badJson nowIso = .ok (defaultData nowIso, []) ∧
    finderInit .undecodable nowIso = .error "UnicodeDecodeError" :=
  ⟨rfl, rfl, rfl⟩

/-! ### C7: the first-page title fallback -/

set_option maxRecDepth 40000 in
/-- C7 counterexample: a first-page text consisting of one line of 150
characters.  Its length is between 10 and 200, so the claimed rule selects
it, but the source (line 355) only accepts lengths strictly between 10 and
100, so the code selects nothing. -/
theorem C7_length_150_line_not_selected :
    fallbackTitle ⟨List.replicate 150 'a'⟩ = none ∧
    specFallbackTitle ⟨List.replicate 150 'a'⟩ = some ⟨List.replicate 150 'a'⟩ := by
  constructor <;> decide

/-- C7 amended: the fallback scans only the first five segments obtained by
splitting the extracted text on the character `|` (not on line breaks), and
selects the first stripped segment whose length is strictly between 10 and
100 characters. -/
theorem C7_fallback_selects_first_plausible_segment (text : String) :
    fallbackTitle text =
      (((splitOnChar '|' text.data).map (fun l => String.mk l)).take 5
          |>.map pyStrip).find?
        (fun l => decide (10 < pyLen l) && decide (pyLen l < 100)) := by
  unfold fallbackTitle
  generalize ((splitOnChar '|' text.data).map (fun l => String.mk l)).take 5 = L
  induction L with
  | nil => rfl
  | cons a as ih =>
    simp only [findTitleLine, List.map_cons, List.find?]
    by_cases hp : 10 < pyLen (pyStrip a) ∧ pyLen (pyStrip a) < 100
    · rw [if_pos hp]
      have : (decide (10 < pyLen (pyStrip a)) && decide (pyLen (pyStrip a) < 100)) = true := by
        simp [hp.1, hp.2]
      rw [this]
    · rw [if_neg hp]
      have : (decide (10 < pyLen (pyStrip a)) && decide (pyLen (pyStrip a) < 100)) = false := by
        rcases not_and_or.mp hp with h1 | h1 <;> simp [h1]
      rw [this, ih]

/-! ### C6: the validator's size filter -/

/-- C6 counterexample: a HEAD response declaring `application/pdf` and a
`Content-Length` of 60MB (62914560 bytes, so a computed size of 60.0MB) is
rejected, but the returned metadata is the empty dictionary: line 289
returns `False, {}`, so the `sizeMB` partial success recorded at line 283
is discarded, not preserved as the claim states. -/
theorem C6_oversize_rejection_discards_sizeMB :
    (validate_pdf_url true
        { head := some ⟨"application/pdf", some 62914560⟩ }
        "https://a.example/big.pdf" true).1 = false ∧
    (validate_pdf_url true
        { head := some ⟨"application/pdf", some 62914560⟩ }
        "https://a.example/big.pdf" true).2.sizeMB = none ∧
    sizeMbOf 62914560 = 60 := by
  refine ⟨by rfl, by rfl, by decide⟩

/-- C6 amended: whenever the HEAD request succeeds and reports a
`Content-Length` whose computed size exceeds the 50MB ceiling, validation
returns `ok = false` with the *empty* metadata dictionary — the computed
`sizeMB` is discarded by the rejection at line 289 rather than preserved. -/
theorem C6_oversize_rejected_with_empty_metadata
    (avail : Bool) (env : UrlEnv) (url : String) (verify : Bool)
    (h : HeadResp) (len : Nat)
    (hHead : env.head = some h) (hLen : h.contentLength = some len)
    (hBig : sizeMbOf len > 50) :
    validate_pdf_url avail env url verify = (false, {}) := by
  unfold validate_pdf_url
  rw [hHead]
  split
  · rename_i heq
    exact absurd heq (by simp)
  · rename_i h2 heq
    obtain rfl : h2 = h := by injection heq with e; exact e.symm
    split
    · rfl
    · split
      · rename_i len2 hlen2
        rw [hLen] at hlen2
        injection hlen2 with e
        subst e
        rw [if_pos hBig]
      · rename_i hlen2
        rw [hLen] at hlen2
        cases hlen2

/-- C6 witness: the amended theorem applied at the 60MB head response. -/
theorem C6_oversize_witness :
    sizeMbOf 62914560 > 50 ∧
    validate_pdf_url true
        { head := some ⟨"application/pdf", some 62914560⟩ }
        "https://a.example/big.pdf" true = (false, {}) :=
  ⟨by decide,
   C6_oversize_rejected_with_empty_metadata true
     { head := some ⟨"application/pdf", some 62914560⟩ }
     "https://a.example/big.pdf" true
     ⟨"application/pdf", some 62914560⟩ 62914560 rfl rfl (by decide)⟩

/-! ### C5: crawling the three-anchor seed page -/

/-- C5 counterexample: the crawl yields two candidates, not one.  The
extension test at line 234 runs on every anchor regardless of domain, so
the cross-domain `https://other.example/c.pdf` is also collected; the
same-domain restriction at lines 241-242 only gates frontier expansion. -/
theorem C5_three_anchor_page_yields_two_candidates :
    ((search_website_for_pdfs envC5 "https://seed.example/index.html" 20 10).getD
      []).length = 2 := by rfl

/-- C5 amended: the scenario yields exactly two candidates — `/a.pdf`
resolved to an absolute URL against the page URL, and the cross-domain
`https://other.example/c.pdf`; the `.html` link yields no candidate, and
the cross-domain link is excluded only from frontier expansion, not from
the results. -/
theorem C5_three_anchor_page_candidates :
    search_website_for_pdfs envC5 "https://seed.example/index.html" 20 10 =
      some ["https://seed.example/a.pdf", "https://other.example/c.pdf"] := by rfl

/-! ### Shared lemmas about the merge step -/

/-- The dedup pass of lines 421-427 drops everything when every candidate
is already known. -/
theorem uniqueNewFrom_eq_nil (existing : List String) :
    ∀ (l seen : List String), (∀ u ∈ l, u ∈ existing) →
      uniqueNewFrom existing seen l = [] := by
  intro l
  induction l with
  | nil => intro seen _; rfl
  | cons a rest ih =>
    intro seen hsub
    unfold uniqueNewFrom
    rw [if_neg fun hc => hc.2 (hsub a (List.mem_cons_self a rest))]
    exact ih seen fun u hu => hsub u (List.mem_cons_of_mem _ hu)

/-- Every URL surviving the dedup pass of lines 421-427 is fresh: not among
the known URLs and not among the already-seen candidates. -/
theorem mem_uniqueNewFrom (existing : List String) :
    ∀ (l seen : List String) (u : String), u ∈ uniqueNewFrom existing seen l →
      u ∉ existing ∧ u ∉ seen := by
  intro l
  induction l with
  | nil => intro seen u hu; cases hu
  | cons a rest ih =>
    intro seen u hu
    unfold uniqueNewFrom at hu
    by_cases hc : a ∉ seen ∧ a ∉ existing
    · rw [if_pos hc] at hu
      rcases List.mem_cons.mp hu with rfl | hu2
      · exact ⟨hc.2, hc.1⟩
      · have := ih (a :: seen) u hu2
        exact ⟨this.1, fun hs => this.2 (List.mem_cons_of_mem _ hs)⟩
    · rw [if_neg hc] at hu
      exact ih seen u hu

/-- The dedup pass of lines 421-427 returns a duplicate-free list. -/
theorem nodup_uniqueNewFrom (existing : List String) :
    ∀ (l seen : List String), (uniqueNewFrom existing seen l).Nodup := by
  intro l
  induction l with
  | nil => intro seen; exact List.nodup_nil
  | cons a rest ih =>
    intro seen
    unfold uniqueNewFrom
    by_cases hc : a ∉ seen ∧ a ∉ existing
    · rw [if_pos hc]
      refine List.nodup_cons.mpr ⟨fun hmem => ?_, ih (a :: seen)⟩
      exact (mem_uniqueNewFrom existing rest (a :: seen) a hmem).2
        (List.mem_cons_self a seen)
    · rw [if_neg hc]
      exact ih seen

/-- What one iteration of the validation loop does, written out by cases on
the validation verdict. -/
theorem processUrl_eq (avail : Bool) (env : String → UrlEnv) (pyHash : String → Int)
    (runDate query : String) (verify : Bool) (st : RunState) (url : String) :
    processUrl avail env pyHash runDate query verify st url =
      (if (validate_pdf_url avail (env url) url verify).1 then
        ⟨⟨st.data.lastValidated,
          st.data.pdfs ++
            [buildEntry pyHash runDate query url
              (validate_pdf_url avail (env url) url verify).2]⟩,
         st.existing ++ [url],
         st.results ++
           [buildEntry pyHash runDate query url
             (validate_pdf_url avail (env url) url verify).2]⟩
      else st) := by
  unfold processUrl
  cases hv : (validate_pdf_url avail (env url) url verify).1 <;> simp [hv]

/-! ### C3: merge idempotence / rediscovery adds nothing -/

/-- C3: rediscovering URLs that the collection already contains adds zero
new entries: the dedup pass of lines 421-427 filters them against
`self.existing_urls`, so `pdfs` is unchanged, the run's new-entry list is
empty, and `save_results` (line 478) only advances the `lastValidated`
timestamp.  In particular a second merge of an already-merged entry is
never applied. -/
theorem C3_rediscovery_leaves_collection_unchanged
    (avail : Bool) (env : String → UrlEnv) (pyHash : String → Int)
    (runDate nowIso query : String) (verify : Bool) (c : Collection)
    (allUrls : List String)
    (hre : ∀ u ∈ allUrls, u ∈ c.pdfs.map (fun e => e.url)) :
    (search_and_process avail env pyHash runDate nowIso query verify c allUrls).1.pdfs
        = c.pdfs ∧
    (search_and_process avail env pyHash runDate nowIso query verify c allUrls).1.lastValidated
        = nowIso ∧
    (search_and_process avail env pyHash runDate nowIso query verify c allUrls).2 = [] := by
  have hnil : uniqueNewFrom (c.pdfs.map (fun e => e.url)) [] allUrls = [] :=
    uniqueNewFrom_eq_nil _ allUrls [] hre
  simp only [search_and_process, uniqueNew, hnil, List.foldl_nil]
  simp [save_results]

/-- C3 witness: a collection holding `https://a.example/x.pdf` and a run
that rediscovers exactly that URL. -/
theorem C3_rediscovery_witness :
    (∀ u ∈ ["https://a.example/x.pdf"],
      u ∈ (Collection.mk "2026-01-01T00:00:00"
            [{ id := "pdf0000001", url := "https://a.example/x.pdf", title := "X",
               dateAdded := "2026-01-01", lastChecked := "2026-01-01",
               isAvailable := true, lastStatus := 200 }]).pdfs.map (fun e => e.url)) ∧
    ((search_and_process true (fun _ => { head := some ⟨"application/pdf", none⟩ })
        (fun _ => 0) "2026-10-12" "2026-10-12T09:00:00" "q" true
        (Collection.mk "2026-01-01T00:00:00"
          [{ id := "pdf0000001", url := "https://a.example/x.pdf", title := "X",
             dateAdded := "2026-01-01", lastChecked := "2026-01-01",
             isAvailable := true, lastStatus := 200 }])
        ["https://a.example/x.pdf"]).1.pdfs
      = (Collection.mk "2026-01-01T00:00:00"
          [{ id := "pdf0000001", url := "https://a.example/x.pdf", title := "X",
             dateAdded := "2026-01-01", lastChecked := "2026-01-01",
             isAvailable := true, lastStatus := 200 }]).pdfs ∧
     (search_and_process true (fun _ => { head := some ⟨"application/pdf", none⟩ })
        (fun _ => 0) "2026-10-12" "2026-10-12T09:00:00" "q" true
        (Collection.mk "2026-01-01T00:00:00"
          [{ id := "pdf0000001", url := "https://a.example/x.pdf", title := "X",
             dateAdded := "2026-01-01", lastChecked := "2026-01-01",
             isAvailable := true, lastStatus := 200 }])
        ["https://a.example/x.pdf"]).1.lastValidated = "2026-10-12T09:00:00" ∧
     (search_and_process true (fun _ => { head := some ⟨"application/pdf", none⟩ })
        (fun _ => 0) "2026-10-12" "2026-10-12T09:00:00" "q" true
        (Collection.mk "2026-01-01T00:00:00"
          [{ id := "pdf0000001", url := "https://a.example/x.pdf", title := "X",
             dateAdded := "2026-01-01", lastChecked := "2026-01-01",
             isAvailable := true, lastStatus := 200 }])
        ["https://a.example/x.pdf"]).2 = []) :=
  ⟨by decide,
   C3_rediscovery_leaves_collection_unchanged true
     (fun _ => { head := some ⟨"application/pdf", none⟩ }) (fun _ => 0)
     "2026-10-12" "2026-10-12T09:00:00" "q" true
     (Collection.mk "2026-01-01T00:00:00"
       [{ id := "pdf0000001", url := "https://a.example/x.pdf", title := "X",
          dateAdded := "2026-01-01", lastChecked := "2026-01-01",
          isAvailable := true, lastStatus := 200 }])
     ["https://a.example/x.pdf"] (by decide)⟩

/-! ### C2: the dedup invariant -/

/-- The validation loop of lines 433-469 preserves URL-uniqueness of the
collection, provided the candidates it is fed are duplicate-free and fresh
(which is what the dedup pass of lines 421-427 guarantees). -/
theorem foldl_processUrl_nodup (avail : Bool) (env : String → UrlEnv)
    (pyHash : String → Int) (runDate query : String) (verify : Bool) :
    ∀ (urls : List String) (st : RunState),
      (st.data.pdfs.map (fun e => e.url)).Nodup →
      (∀ u ∈ urls, u ∉ st.data.pdfs.map (fun e => e.url)) →
      urls.Nodup →
      ((urls.foldl (processUrl avail env pyHash runDate query verify) st).data.pdfs.map
        (fun e => e.url)).Nodup := by
  intro urls
  induction urls with
  | nil => intro st h1 _ _; simpa using h1
  | cons u rest ih =>
    intro st h1 h2 h3
    rw [List.foldl_cons]
    rcases List.nodup_cons.mp h3 with ⟨hu, hrest⟩
    have hres := processUrl_eq avail env pyHash runDate query verify st u
    by_cases hv : (validate_pdf_url avail (env u) u verify).1 = true
    · rw [hres, if_pos hv]
      apply ih
      · simp only [List.map_append, List.map_cons, List.map_nil]
        have hurl :
            (buildEntry pyHash runDate query u
              (validate_pdf_url avail (env u) u verify).2).url = u := rfl
        rw [hurl]
        refine List.Nodup.append h1 (List.nodup_singleton u) ?_
        intro x hx hx2
        rw [List.mem_singleton.mp hx2] at hx
        exact (h2 u (List.mem_cons_self u rest)) hx
      · intro v hvr
        simp only [List.map_append, List.map_cons, List.map_nil, List.mem_append,
          List.mem_singleton]
        rintro (hvm | rfl)
        · exact (h2 v (List.mem_cons_of_mem _ hvr)) hvm
        · exact hu hvr
      · exact hrest
    · rw [hres, if_neg hv]
      exact ih st h1 (fun v hvr => h2 v (List.mem_cons_of_mem _ hvr)) hrest

/-- C2: every collection produced by a run of the pipeline keeps the dedup
invariant — starting from a collection with pairwise-distinct entry URLs,
after any merge of any discovered candidate sequence no two entries of
`pdfs` share a `url`: the dedup pass of lines 421-427 feeds the append of
line 463 only fresh, pairwise-distinct URLs. -/
theorem C2_merge_preserves_url_uniqueness
    (avail : Bool) (env : String → UrlEnv) (pyHash : String → Int)
    (runDate nowIso query : String) (verify : Bool) (c : Collection)
    (allUrls : List String)
    (hnd : (c.pdfs.map (fun e => e.url)).Nodup) :
    (((search_and_process avail env pyHash runDate nowIso query verify c
        allUrls).1).pdfs.map (fun e => e.url)).Nodup := by
  have h2 : ∀ u ∈ uniqueNew (c.pdfs.map (fun e => e.url)) allUrls,
      u ∉ c.pdfs.map (fun e => e.url) :=
    fun u hu => (mem_uniqueNewFrom _ allUrls [] u hu).1
  have h3 : (uniqueNew (c.pdfs.map (fun e => e.url)) allUrls).Nodup :=
    nodup_uniqueNewFrom _ allUrls []
  exact foldl_processUrl_nodup avail env pyHash runDate query verify _
    ⟨c, c.pdfs.map (fun e => e.url), []⟩ hnd h2 h3

/-- C2 witness: an empty collection merged with a candidate list that
repeats one URL and adds another. -/
theorem C2_merge_witness :
    ((Collection.mk "t0" []).pdfs.map (fun e => e.url)).Nodup ∧
    (((search_and_process true (fun _ => { head := some ⟨"application/pdf", none⟩ })
        (fun _ => 0) "2026-10-12" "2026-10-12T09:00:00" "q" false
        (Collection.mk "t0" [])
        ["https://x.example/a.pdf", "https://x.example/a.pdf",
         "https://x.example/b.pdf"]).1).pdfs.map (fun e => e.url)).Nodup :=
  ⟨by decide,
   C2_merge_preserves_url_uniqueness true
     (fun _ => { head := some ⟨"application/pdf", none⟩ }) (fun _ => 0)
     "2026-10-12" "2026-10-12T09:00:00" "q" false (Collection.mk "t0" [])
     ["https://x.example/a.pdf", "https://x.example/a.pdf",
      "https://x.example/b.pdf"] (by decide)⟩

/-! ### C4: crawl termination

The loop of lines 206-251 has *no* visited-count safety ceiling: its only
exits are an empty frontier and the result limit.  On a site that keeps
producing fresh same-domain links without ever linking a PDF, the loop
runs forever — refuting the claim for infinite page graphs.  The
counterexample site links every page `u` to the page `u ++ "x"`.  The
claim is then amended to environments whose (resolved) link universe is
finite: there the loop provably returns within `|U| + 1` iterations, since
each iteration pops one frontier entry and each URL is enqueued at most
once. -/

/-- Chain pages are pairwise distinct (their lengths differ), so no later
chain page is ever in an earlier visited set. -/
theorem chainU_not_mem_chainVisited (m n : Nat) (h : n ≤ m) :
    chainU m ∉ chainVisited n := by
  intro hmem
  rcases List.mem_map.mp hmem with ⟨k, hk, heq⟩
  have hlen := congrArg (fun s => s.data.length) heq
  have h1 : (chainU k).data.length = 19 + k := by
    show ("https://s.example/p".data ++ List.replicate k 'x').length = 19 + k
    rw [List.length_append, List.length_replicate]; norm_num
  have h2 : (chainU m).data.length = 19 + m := by
    show ("https://s.example/p".data ++ List.replicate m 'x').length = 19 + m
    rw [List.length_append, List.length_replicate]; norm_num
  simp only [h1, h2] at hlen
  have hkn : k < n := List.mem_range.mp hk
  omega

/-- Following the chain site's single anchor appends one `x`. -/
theorem chainU_succ (n : Nat) : chainU n ++ "x" = chainU (n + 1) := by
  show String.mk ("https://s.example/p".data ++ List.replicate n 'x' ++ "x".data) = _
  unfold chainU
  rw [List.append_assoc]
  rw [show ("x".data : List Char) = ['x'] from rfl, ← List.replicate_succ']

/-- No chain page ends in `.pdf`, so the crawler never collects a result
from the chain site. -/
theorem chainU_not_pdf (n : Nat) : pyEndsWith (pyLower (chainU (n + 1))) ".pdf" = false := by
  show isPre ".pdf".data.reverse ((List.map Char.toLower
    ("https://s.example/p".data ++ List.replicate (n + 1) 'x')).reverse) = false
  rw [List.map_append, List.map_replicate]
  rw [show Char.toLower 'x' = 'x' from rfl]
  rw [show List.map Char.toLower "https://s.example/p".data =
    "https://s.example/p".data from rfl]
  rw [List.reverse_append, List.reverse_replicate, List.replicate_succ]
  rw [show (".pdf".data.reverse : List Char) = ['f', 'd', 'p', '.'] from rfl]
  simp [isPre]

theorem chainVisited_succ (n : Nat) :
    chainVisited n ++ [chainU n] = chainVisited (n + 1) := by
  unfold chainVisited
  rw [List.range_succ, List.map_append]
  rfl

/-- One crawl iteration on the chain site: the `n`-th page is fetched and
exactly the `(n+1)`-st page is enqueued; no result is ever collected. -/
theorem chain_crawlIter (n : Nat) :
    crawlIter chainEnv 20 ⟨[], chainVisited n, [chainU n]⟩ =
      ⟨[], chainVisited (n + 1), [chainU (n + 1)]⟩ := by
  have hmem := chainU_not_mem_chainVisited n n le_rfl
  dsimp only [crawlIter, chainEnv]
  rw [if_neg hmem]
  rw [if_neg (fun h => h rfl)]
  rw [if_neg (fun h => h rfl)]
  rw [chainVisited_succ, chainU_succ]
  have hpl : processLinks (chainU n) 20 (chainVisited (n + 1)) [chainU (n + 1)] [] []
      = ([], [chainU (n + 1)]) := by
    have hres : resolveHref (chainU n) (chainU (n + 1)) = chainU (n + 1) := by
      unfold resolveHref
      rw [show pyStartsWith (chainU (n + 1)) "/" = false from rfl]
      simp
    have hls : linkStep (chainU n) 20 (chainVisited (n + 1)) (chainU (n + 1)) [] []
        = ([], [chainU (n + 1)], false) := by
      unfold linkStep
      rw [hres]
      rw [if_neg (fun hc => by rw [chainU_not_pdf n] at hc; exact absurd hc.1 (by simp))]
      unfold enqueue
      rw [if_pos ⟨by decide, chainU_not_mem_chainVisited (n + 1) (n + 1) le_rfl,
        List.not_mem_nil _, rfl⟩]
      rfl
    rw [processLinks, hls]
    rfl
  rw [hpl]

/-- No amount of fuel finishes the crawl of the chain site: after every
iteration the frontier again holds exactly one unvisited page and the
result list is still empty. -/
theorem chain_crawlLoop_none (fuel : Nat) : ∀ n,
    crawlLoop chainEnv 20 fuel ⟨[], chainVisited n, [chainU n]⟩ = none := by
  induction fuel with
  | zero => intro n; rfl
  | succ fuel ih =>
    intro n
    rw [crawlLoop]
    rw [if_neg, chain_crawlIter n]
    · exact ih (n + 1)
    · intro hd
      rcases hd with h1 | h2
      · simp at h1
      · simp at h2

/-- C4 counterexample: the crawl does *not* always terminate.  On the
chain site — an infinite graph of same-domain pages, each fetch succeeding
with HTML — `discover` never returns for seed `https://s.example/p` and
limit 20: there is no visited-count safety ceiling in the loop of lines
206-251, and the frontier never empties. -/
theorem C4_infinite_chain_crawl_never_returns :
    ¬ crawlTerminates chainEnv 20 "https://s.example/p" := by
  rintro ⟨fuel, hf⟩
  have h0 : (⟨[], [], ["https://s.example/p"]⟩ : CrawlState) =
      ⟨[], chainVisited 0, [chainU 0]⟩ := rfl
  rw [h0, chain_crawlLoop_none fuel 0] at hf
  simp at hf

/-- `enqueue` keeps the frontier duplicate-free and disjoint from the
visited set, and keeps `crawlMeasure` constant: a URL enters the frontier
only by leaving the never-reached part of the universe. -/
theorem enqueue_spec (U : Finset String) (cur : String) (vis tv : List String)
    (a : String) (hnd : tv.Nodup) (hdisj : ∀ v ∈ tv, v ∉ vis) (haU : a ∈ U) :
    (enqueue cur vis tv a).Nodup ∧ (∀ v ∈ enqueue cur vis tv a, v ∉ vis) ∧
    crawlMeasure U vis (enqueue cur vis tv a) = crawlMeasure U vis tv := by
  unfold enqueue
  split
  · rename_i hg
    obtain ⟨hlen, hnvis, hntv, hnet⟩ := hg
    refine ⟨?_, ?_, ?_⟩
    · exact List.Nodup.append hnd (List.nodup_singleton a)
        (fun x hx hx2 => hntv (by rwa [List.mem_singleton.mp hx2] at hx))
    · intro v hv
      rcases List.mem_append.mp hv with hm | hm
      · exact hdisj v hm
      · rw [List.mem_singleton.mp hm]; exact hnvis
    · unfold crawlMeasure
      have hfil : U.filter (fun u => u ∉ vis ∧ u ∉ tv ++ [a]) =
          (U.filter (fun u => u ∉ vis ∧ u ∉ tv)).erase a := by
        ext u
        simp only [Finset.mem_filter, Finset.mem_erase, List.mem_append,
          List.mem_singleton]
        constructor
        · rintro ⟨hUm, hv, htv⟩
          push_neg at htv
          exact ⟨htv.2, hUm, hv, htv.1⟩
        · rintro ⟨hne, hUm, hv, htv⟩
          refine ⟨hUm, hv, fun hor => ?_⟩
          rcases hor with h | h
          · exact htv h
          · exact hne h
      rw [hfil, List.length_append]
      have hmem : a ∈ U.filter (fun u => u ∉ vis ∧ u ∉ tv) :=
        Finset.mem_filter.mpr ⟨haU, hnvis, hntv⟩
      rw [Finset.card_erase_of_mem hmem]
      have hpos : 0 < (U.filter (fun u => u ∉ vis ∧ u ∉ tv)).card :=
        Finset.card_pos.mpr ⟨a, hmem⟩
      simp only [List.length_singleton]
      omega
  · exact ⟨hnd, hdisj, rfl⟩

/-- Processing one anchor preserves the frontier invariants and the
measure. -/
theorem linkStep_spec (U : Finset String) (cur : String) (limit : Nat)
    (vis : List String) (href : String) (res tv : List String)
    (hnd : tv.Nodup) (hdisj : ∀ v ∈ tv, v ∉ vis)
    (haU : resolveHref cur href ∈ U) :
    ((linkStep cur limit vis href res tv).2.1).Nodup ∧
    (∀ v ∈ (linkStep cur limit vis href res tv).2.1, v ∉ vis) ∧
    crawlMeasure U vis (linkStep cur limit vis href res tv).2.1 =
      crawlMeasure U vis tv := by
  unfold linkStep
  split
  · split
    · exact ⟨hnd, hdisj, rfl⟩
    · exact enqueue_spec U cur vis tv _ hnd hdisj haU
  · exact enqueue_spec U cur vis tv _ hnd hdisj haU

/-- Processing a page's anchors preserves the frontier invariants and the
measure, provided every resolved link lies in the universe `U`. -/
theorem processLinks_spec (U : Finset String) (cur : String) (limit : Nat)
    (vis : List String) :
    ∀ (hrefs : List String), (∀ h ∈ hrefs, resolveHref cur h ∈ U) →
      ∀ (res tv : List String), tv.Nodup → (∀ v ∈ tv, v ∉ vis) →
      ((processLinks cur limit vis hrefs res tv).2).Nodup ∧
      (∀ v ∈ (processLinks cur limit vis hrefs res tv).2, v ∉ vis) ∧
      crawlMeasure U vis (processLinks cur limit vis hrefs res tv).2 =
        crawlMeasure U vis tv := by
  intro hrefs
  induction hrefs with
  | nil => intro _ res tv hnd hdisj; exact ⟨hnd, hdisj, rfl⟩
  | cons href rest ih =>
    intro hh res tv hnd hdisj
    rcases hls : linkStep cur limit vis href res tv with ⟨res2, tv2, brk⟩
    have hspec := linkStep_spec U cur limit vis href res tv hnd hdisj
      (hh href (List.mem_cons_self _ _))
    rw [hls] at hspec
    obtain ⟨hnd2, hdisj2, hmeas2⟩ := hspec
    cases brk with
    | true =>
      simp only [processLinks, hls, if_true]
      exact ⟨hnd2, hdisj2, hmeas2⟩
    | false =>
      simp only [processLinks, hls, Bool.false_eq_true, if_false]
      obtain ⟨hndr, hdisjr, hmr⟩ := ih (fun h2 hm => hh h2 (List.mem_cons_of_mem _ hm))
        res2 tv2 hnd2 hdisj2
      exact ⟨hndr, hdisjr, hmr.trans hmeas2⟩

/-- One loop iteration strictly decreases the measure: a frontier entry is
popped, and every newly enqueued URL leaves the never-reached part of the
universe. -/
theorem crawlIter_spec (env : CrawlEnv) (U : Finset String) (limit : Nat)
    (hU : ∀ url page, env url = some page → ∀ h ∈ page.hrefs, resolveHref url h ∈ U)
    (s : CrawlState) (hnd : s.toVisit.Nodup)
    (hdisj : ∀ v ∈ s.toVisit, v ∉ s.visited)
    (hrun : ¬ crawlDone limit s) :
    (crawlIter env limit s).toVisit.Nodup ∧
    (∀ v ∈ (crawlIter env limit s).toVisit, v ∉ (crawlIter env limit s).visited) ∧
    crawlMeasure U (crawlIter env limit s).visited (crawlIter env limit s).toVisit + 1 ≤
      crawlMeasure U s.visited s.toVisit := by
  rcases s with ⟨res, vis, tv⟩
  cases tv with
  | nil => exact absurd (Or.inl rfl) hrun
  | cons current rest =>
    simp only at hnd hdisj
    obtain ⟨hcr, hndr⟩ := List.nodup_cons.mp hnd
    have hdr : ∀ v ∈ rest, v ∉ vis := fun v hv => hdisj v (List.mem_cons_of_mem _ hv)
    have hdrc : ∀ v ∈ rest, v ∉ vis ++ [current] := by
      intro v hv hmem
      rcases List.mem_append.mp hmem with hm | hm
      · exact hdr v hv hm
      · rw [List.mem_singleton.mp hm] at hv
        exact hcr hv
    have hfilB : U.filter (fun u => u ∉ vis ++ [current] ∧ u ∉ rest) =
        U.filter (fun u => u ∉ vis ∧ u ∉ current :: rest) := by
      ext u
      simp only [Finset.mem_filter, List.mem_append, List.mem_singleton, List.mem_cons]
      simp only [List.not_mem_nil, or_false]
      tauto
    dsimp only [crawlIter]
    split
    · rename_i hcv
      refine ⟨hndr, hdr, ?_⟩
      unfold crawlMeasure
      have hfilA : U.filter (fun u => u ∉ vis ∧ u ∉ rest) =
          U.filter (fun u => u ∉ vis ∧ u ∉ current :: rest) := by
        ext u
        simp only [Finset.mem_filter, List.mem_cons]
        constructor
        · rintro ⟨hUm, hv, hvr⟩
          refine ⟨hUm, hv, fun hor => ?_⟩
          rcases hor with rfl | h
          · exact hv hcv
          · exact hvr h
        · rintro ⟨hUm, hv, hcr2⟩
          exact ⟨hUm, hv, fun h => hcr2 (Or.inr h)⟩
      rw [hfilA]
      simp only [List.length_cons]
      omega
    · rename_i hcv
      split
      · refine ⟨hndr, hdrc, ?_⟩
        unfold crawlMeasure
        rw [hfilB]
        simp only [List.length_cons]
        omega
      · rename_i page henv
        split
        · refine ⟨hndr, hdrc, ?_⟩
          unfold crawlMeasure
          rw [hfilB]
          simp only [List.length_cons]
          omega
        · split
          · refine ⟨hndr, hdrc, ?_⟩
            unfold crawlMeasure
            rw [hfilB]
            simp only [List.length_cons]
            omega
          · obtain ⟨hnd2, hdisj2, hmeas2⟩ := processLinks_spec U current limit
              (vis ++ [current]) page.hrefs (hU current page henv) res rest hndr hdrc
            refine ⟨hnd2, hdisj2, ?_⟩
            rw [hmeas2]
            unfold crawlMeasure
            rw [hfilB]
            simp only [List.length_cons]
            omega

/-- Fuel exceeding the measure suffices for the crawl loop to reach one of
its exits. -/
theorem crawlLoop_isSome_of_measure_lt (env : CrawlEnv) (U : Finset String)
    (limit : Nat)
    (hU : ∀ url page, env url = some page → ∀ h ∈ page.hrefs, resolveHref url h ∈ U) :
    ∀ (fuel : Nat) (s : CrawlState), s.toVisit.Nodup →
      (∀ v ∈ s.toVisit, v ∉ s.visited) →
      crawlMeasure U s.visited s.toVisit < fuel →
      (crawlLoop env limit fuel s).isSome = true := by
  intro fuel
  induction fuel with
  | zero => intro s _ _ hm; exact absurd hm (Nat.not_lt_zero _)
  | succ fuel ih =>
    intro s hnd hdisj hm
    rw [crawlLoop]
    by_cases hd : crawlDone limit s
    · rw [if_pos hd]; rfl
    · rw [if_neg hd]
      obtain ⟨h1, h2, h3⟩ := crawlIter_spec env U limit hU s hnd hdisj hd
      exact ih _ h1 h2 (by omega)

/-- C4 amended: for every seed URL, every result limit, and every
environment whose resolved links all lie in a finite universe `U`, the
crawl returns within `U.card + 1` page-loop iterations: each iteration
pops one frontier entry, each URL is enqueued at most once (the guard of
line 241 excludes visited and already-queued links), and the frontier size
is additionally capped at 50.  There is, however, no visited-count safety
ceiling — on an infinite universe the loop need not return. -/
theorem C4_crawl_terminates_on_finite_link_universe (env : CrawlEnv)
    (U : Finset String) (limit : Nat) (seed : String)
    (hU : ∀ url page, env url = some page → ∀ h ∈ page.hrefs, resolveHref url h ∈ U) :
    (search_website_for_pdfs env seed limit (U.card + 2)).isSome = true := by
  apply crawlLoop_isSome_of_measure_lt env U limit hU
  · exact List.nodup_singleton seed
  · intro v _
    exact List.not_mem_nil v
  · unfold crawlMeasure
    have hle := Finset.card_filter_le U
      (fun u => u ∉ ([] : List String) ∧ u ∉ [seed])
    simp only [List.length_singleton]
    omega

/-- C4 witness: an environment where every fetch raises has its (empty)
link universe contained in `∅`, and the crawl returns with fuel 2. -/
theorem C4_crawl_terminates_witness :
    (∀ url page, (fun _ => none : CrawlEnv) url = some page →
      ∀ h ∈ page.hrefs, resolveHref url h ∈ (∅ : Finset String)) ∧
    (search_website_for_pdfs (fun _ => none) "https://a.example/" 7
      ((∅ : Finset String).card + 2)).isSome = true :=
  ⟨fun _ _ h => Option.noConfusion h,
   C4_crawl_terminates_on_finite_link_universe (fun _ => none) ∅ 7 "https://a.example/"
     (fun _ _ h => Option.noConfusion h)⟩

/-! ### C8: the crawler never expands across domains -/

/-- A URL is put on the frontier by `enqueue` only when it was already
queued or passes the guard of lines 241-242 (in particular: same netloc as
the current page). -/
theorem mem_enqueue {cur : String} {vis tv : List String} {a u : String}
    (hu : u ∈ enqueue cur vis tv a) :
    u ∈ tv ∨ (u = a ∧ tv.length < 50 ∧ a ∉ vis ∧ a ∉ tv ∧ netloc cur = netloc a) := by
  unfold enqueue at hu
  split at hu
  · rename_i hg
    rcases List.mem_append.mp hu with hm | hm
    · exact Or.inl hm
    · exact Or.inr ⟨List.mem_singleton.mp hm, hg⟩
  · exact Or.inl hu

/-- Processing one anchor only adds same-netloc URLs to the frontier. -/
theorem mem_linkStep_toVisit (cur : String) (limit : Nat) (vis : List String)
    (href : String) (res tv : List String) (u : String)
    (hu : u ∈ (linkStep cur limit vis href res tv).2.1) :
    u ∈ tv ∨ netloc u = netloc cur := by
  unfold linkStep at hu
  split at hu
  · split at hu
    · exact Or.inl hu
    · rcases mem_enqueue hu with hm | ⟨rfl, _, _, _, hn⟩
      · exact Or.inl hm
      · exact Or.inr hn.symm
  · rcases mem_enqueue hu with hm | ⟨rfl, _, _, _, hn⟩
    · exact Or.inl hm
    · exact Or.inr hn.symm

/-- Processing a page's anchors only adds URLs whose netloc equals the
current page's netloc. -/
theorem processLinks_toVisit_netloc (cur : String) (limit : Nat) (visited : List String) :
    ∀ (hrefs results toVisit : List String) (u : String),
      u ∈ (processLinks cur limit visited hrefs results toVisit).2 →
      u ∈ toVisit ∨ netloc u = netloc cur := by
  intro hrefs
  induction hrefs with
  | nil => intro results toVisit u hu; exact Or.inl hu
  | cons href rest ih =>
    intro results toVisit u hu
    rcases hls : linkStep cur limit visited href results toVisit with ⟨res2, tv2, brk⟩
    have htv2 : ∀ v ∈ tv2, v ∈ toVisit ∨ netloc v = netloc cur := by
      intro v hv
      exact mem_linkStep_toVisit cur limit visited href results toVisit v
        (by rw [hls]; exact hv)
    cases brk with
    | true =>
      simp only [processLinks, hls, if_true] at hu
      exact htv2 u hu
    | false =>
      simp only [processLinks, hls, Bool.false_eq_true, if_false] at hu
      rcases ih res2 tv2 u hu with hm | hn
      · exact htv2 u hm
      · exact Or.inr hn

/-- C8: in every state the crawl loop can reach, every URL on the frontier
— the seed included — has the seed URL's netloc, so no fetched expansion
link ever crosses the seed's registrable domain (equal netlocs mean equal
hosts, hence the same registrable domain).  The guard of lines 241-242
compares each link against the *current* page, and the property propagates
inductively to the seed. -/
theorem C8_crawler_stays_on_seed_netloc (env : CrawlEnv) (limit : Nat) (seed : String) :
    ∀ (n : Nat) (u : String), u ∈ (crawlStateAt env limit seed n).toVisit →
      netloc u = netloc seed := by
  intro n
  induction n with
  | zero =>
    intro u hu
    rw [List.mem_singleton.mp hu]
  | succ n ih =>
    intro u hu
    rcases hs : crawlStateAt env limit seed n with ⟨res, vis, tv⟩
    have htv : ∀ v ∈ tv, netloc v = netloc seed := by
      intro v hv
      exact ih v (by rw [hs]; exact hv)
    have hstep : crawlStateAt env limit seed (n + 1) =
        crawlIter env limit ⟨res, vis, tv⟩ := by
      show crawlIter env limit (crawlStateAt env limit seed n) = _
      rw [hs]
    rw [hstep] at hu
    cases tv with
    | nil => simp [crawlIter] at hu
    | cons current rest =>
      have hcur : netloc current = netloc seed := htv current (List.mem_cons_self _ _)
      have hrest : ∀ v ∈ rest, netloc v = netloc seed :=
        fun v hv => htv v (List.mem_cons_of_mem _ hv)
      dsimp only [crawlIter] at hu
      split at hu
      · exact hrest u hu
      · split at hu
        · exact hrest u hu
        · split at hu
          · exact hrest u hu
          · split at hu
            · exact hrest u hu
            · rcases processLinks_toVisit_netloc current limit _ _ _ _ u hu with hm | hn
              · exact hrest u hm
              · exact hn.trans hcur

/-- C8 witness: after one iteration the frontier holds the resolved
expansion link, and the theorem yields its netloc equality with the seed. -/
theorem C8_crawler_netloc_witness :
    "https://s.example/x.html" ∈
      (crawlStateAt envC8 20 "https://s.example/" 1).toVisit ∧
    netloc "https://s.example/x.html" = netloc "https://s.example/" :=
  ⟨by decide,
   C8_crawler_stays_on_seed_netloc envC8 20 "https://s.example/" 1
     "https://s.example/x.html" (by decide)⟩

/-! ### C10: the shape of appended entries -/

/-- The `:07d` digits are decimal digits. -/
theorem digitChar_isDigit (m : Nat) : (digitChar (m % 10)).isDigit = true := by
  have hlt : m % 10 < 10 := Nat.mod_lt _ (by norm_num)
  set r := m % 10 with hr
  interval_cases r <;> decide

/-- Unfolding `isPdfId` on a string starting with the literal `pdf`. -/
theorem isPdfId_mk (l : List Char) :
    isPdfId ⟨'p' :: 'd' :: 'f' :: l⟩ =
      (decide (l.length = 7) && l.all Char.isDigit) := rfl

/-- Every generated id (line 438) has the documented shape: `pdf` followed
by exactly seven decimal digits, whatever the process hash assigns. -/
theorem isPdfId_pdf_id (pyHash : String → Int) (url : String) :
    isPdfId (pdf_id pyHash url) = true := by
  show isPdfId ("pdf" ++ natDigits7 ((pyHash url).natAbs % 10000000)) = true
  generalize (pyHash url).natAbs % 10000000 = n
  show isPdfId ⟨'p' :: 'd' :: 'f' ::
    [digitChar (n / 1000000 % 10), digitChar (n / 100000 % 10),
     digitChar (n / 10000 % 10), digitChar (n / 1000 % 10),
     digitChar (n / 100 % 10), digitChar (n / 10 % 10), digitChar (n % 10)]⟩ = true
  rw [isPdfId_mk, Bool.and_eq_true]
  refine ⟨by rfl, ?_⟩
  rw [List.all_eq_true]
  intro c hc
  simp only [List.mem_cons, List.not_mem_nil, or_false] at hc
  rcases hc with rfl | rfl | rfl | rfl | rfl | rfl | rfl <;> exact digitChar_isDigit _

/-- The title cleanup of lines 369-374 keeps a present title present. -/
theorem cleanupMeta_title_isSome (md : Metadata) :
    (cleanupMeta md).title.isSome = md.title.isSome := by
  cases h : md.title <;> simp [cleanupMeta, h]

/-- The pdfplumber phase (lines 324-357) never removes the title set at
line 295. -/
theorem deepExtract_title_isSome (d : PdfDeep) (t : String) (md : Metadata)
    (h : md.title.isSome = true) : (deepExtract d t md).title.isSome = true := by
  unfold deepExtract
  repeat' split
  all_goals try simp_all [pyTruthy]
  all_goals try (split <;> simp_all [pyTruthy])
  all_goals (cases hd : d.metaTitle <;> simp_all)

/-- After the size check, validation either rejects or returns metadata
that has a title key (line 295 always sets one before any success
return). -/
theorem validateTail_snd_title (avail : Bool) (env : UrlEnv) (url : String)
    (verify : Bool) (md : Metadata) :
    (validateTail avail env url verify md).1 = false ∨
    (validateTail avail env url verify md).2.title.isSome = true := by
  unfold validateTail
  repeat' split
  all_goals simp_all [cleanupMeta_title_isSome]
  all_goals exact deepExtract_title_isSome _ _ _ rfl

/-- Successful validation always returns metadata with a title key. -/
theorem validate_snd_title (avail : Bool) (env : UrlEnv) (url : String)
    (verify : Bool) :
    (validate_pdf_url avail env url verify).1 = false ∨
    (validate_pdf_url avail env url verify).2.title.isSome = true := by
  unfold validate_pdf_url
  repeat' split
  all_goals first
    | exact Or.inl rfl
    | exact validateTail_snd_title _ _ _ _ _

/-- Generic preservation: every entry the validation loop of lines 433-469
accumulates into `results` was built by `buildEntry` from a URL whose
validation succeeded. -/
theorem foldl_processUrl_results (avail : Bool) (env : String → UrlEnv)
    (pyHash : String → Int) (runDate query : String) (verify : Bool)
    (P : PdfEntry → Prop)
    (hP : ∀ url : String, (validate_pdf_url avail (env url) url verify).1 = true →
      P (buildEntry pyHash runDate query url
          (validate_pdf_url avail (env url) url verify).2)) :
    ∀ (urls : List String) (st : RunState),
      (∀ e ∈ st.results, P e) →
      ∀ e ∈ (urls.foldl (processUrl avail env pyHash runDate query verify) st).results,
        P e := by
  intro urls
  induction urls with
  | nil => intro st h e he; exact h e he
  | cons u rest ih =>
    intro st h e he
    rw [List.foldl_cons] at he
    refine ih _ ?_ e he
    rw [processUrl_eq]
    split
    · rename_i hv
      intro e2 he2
      rcases List.mem_append.mp he2 with h2 | h2
      · exact h e2 h2
      · rw [List.mem_singleton.mp h2]
        exact hP u hv
    · exact h

/-- C10 counterexample to the title clause: the discovered URL
`https://x.example/.pdf` is validated (its extension passes the check at
line 273) with a URL-derived title that de-slugifies to the empty string,
so the appended entry's title is `""` — neither a non-empty extracted
title nor the `"Untitled PDF"` default. -/
theorem C10_entry_title_can_be_empty :
    ((search_and_process true (fun _ => { head := some ⟨"application/pdf", none⟩ })
        (fun _ => 0) "2026-10-12" "2026-10-12T09:00:00" "q" false
        (Collection.mk "t0" []) ["https://x.example/.pdf"]).2.map
      (fun e => e.title)) = [""] := by rfl

/-- C10 amended: every entry appended by a processing run has
`isAvailable = True`, `lastStatus = 200`, `dateAdded` equal to
`lastChecked` (both the run date), an id of shape `pdf` + seven decimal
digits, and as title the validator's extracted/derived title — which is
always present when validation succeeds (so the `"Untitled PDF"` default
of line 443 is never used), but may be the empty string. -/
theorem C10_appended_entry_shape
    (avail : Bool) (env : String → UrlEnv) (pyHash : String → Int)
    (runDate nowIso query : String) (verify : Bool) (c : Collection)
    (allUrls : List String) (e : PdfEntry)
    (he : e ∈ (search_and_process avail env pyHash runDate nowIso query verify c
      allUrls).2) :
    e.isAvailable = true ∧ e.lastStatus = 200 ∧
    e.dateAdded = runDate ∧ e.lastChecked = runDate ∧
    isPdfId e.id = true ∧
    (validate_pdf_url avail (env e.url) e.url verify).1 = true ∧
    (validate_pdf_url avail (env e.url) e.url verify).2.title.isSome = true ∧
    e.title = (validate_pdf_url avail (env e.url) e.url verify).2.title.getD
      "Untitled PDF" := by
  have he2 : e ∈ ((uniqueNew (c.pdfs.map (fun x => x.url)) allUrls).foldl
      (processUrl avail env pyHash runDate query verify)
      ⟨c, c.pdfs.map (fun x => x.url), []⟩).results := he
  refine foldl_processUrl_results avail env pyHash runDate query verify
    (fun x => x.isAvailable = true ∧ x.lastStatus = 200 ∧
      x.dateAdded = runDate ∧ x.lastChecked = runDate ∧
      isPdfId x.id = true ∧
      (validate_pdf_url avail (env x.url) x.url verify).1 = true ∧
      (validate_pdf_url avail (env x.url) x.url verify).2.title.isSome = true ∧
      x.title = (validate_pdf_url avail (env x.url) x.url verify).2.title.getD
        "Untitled PDF")
    (fun url hv => ?_) (uniqueNew (c.pdfs.map (fun x => x.url)) allUrls)
    ⟨c, c.pdfs.map (fun x => x.url), []⟩
    (fun e2 hm => absurd hm (List.not_mem_nil e2)) e he2
  refine ⟨rfl, rfl, rfl, rfl, isPdfId_pdf_id pyHash url, hv, ?_, rfl⟩
  rcases validate_snd_title avail (env url) url verify with hf | ht
  · rw [hv] at hf; cases hf
  · exact ht

/-- C10 witness: the amended theorem applied to the single entry produced
from `https://x.example/a.pdf` by a verification-free run over the empty
collection. -/
theorem C10_appended_entry_witness :
    ({ id := "pdf0000000", url := "https://x.example/a.pdf", title := "A",
       dateAdded := "2026-10-12", lastChecked := "2026-10-12",
       isAvailable := true, lastStatus := 200,
       sourceQuery := some ["q"] } : PdfEntry) ∈
      (search_and_process true (fun _ => { head := some ⟨"application/pdf", none⟩ })
        (fun _ => 0) "2026-10-12" "2026-10-12T09:00:00" "q" false
        (Collection.mk "t0" []) ["https://x.example/a.pdf"]).2 ∧
    (({ id := "pdf0000000", url := "https://x.example/a.pdf", title := "A",
        dateAdded := "2026-10-12", lastChecked := "2026-10-12",
        isAvailable := true, lastStatus := 200,
        sourceQuery := some ["q"] } : PdfEntry).isAvailable = true ∧
     ({ id := "pdf0000000", url := "https://x.example/a.pdf", title := "A",
        dateAdded := "2026-10-12", lastChecked := "2026-10-12",
        isAvailable := true, lastStatus := 200,
        sourceQuery := some ["q"] } : PdfEntry).lastStatus = 200) :=
  ⟨by decide,
   have hall := C10_appended_entry_shape true
     (fun _ => { head := some ⟨"application/pdf", none⟩ }) (fun _ => 0)
     "2026-10-12" "2026-10-12T09:00:00" "q" false (Collection.mk "t0" [])
     ["https://x.example/a.pdf"]
     { id := "pdf0000000", url := "https://x.example/a.pdf", title := "A",
       dateAdded := "2026-10-12", lastChecked := "2026-10-12",
       isAvailable := true, lastStatus := 200, sourceQuery := some ["q"] }
     (by decide)
   ⟨hall.1, hall.2.1⟩⟩

end PdfFinder
